import Mathlib

/-!
Shallow embedding of the shoutcast ICY stream client (src/stream.go).

The Go code has two operations:
* `Open url` — HTTP bootstrap: builds a request, performs it, parses the
  required integer headers `icy-br` / `icy-metaint` and the descriptive
  string headers, and constructs a `Stream`.
* `(*Stream).Read p` — the demuxer: reads raw bytes from the underlying
  source into the caller's buffer, and when a metadata boundary falls in
  the chunk, decodes the metadata block, fires the change callback, and
  compacts the buffer so only audio bytes remain.

Modelling conventions:
* Buffers are `List Nat` (byte values); Go `int` is `Int`.
* The underlying source read `s.rc.Read(p)` is modelled by its outcome:
  the list `data` of bytes it wrote into the front of `p` and the error
  value `err` it returned, both inputs of the embedded `Read`.
* A Go slice expression `p[a:b]` panics when the bounds are out of range;
  fallible indexing is modelled with `Option`, and a `none` result of the
  embedded operation models a runtime panic (the call never returns).
* The metadata collaborator (`NewMetadata`, `Equals`) lives in a source
  file that is not part of src/; it is modelled from the spec (§4.2).
* Side effects of the metadata callback are modelled by returning the
  list of snapshots the callback was invoked with during the call.
-/

namespace Shoutcast

/-- Go indexing `p[i]` for an `Int` index: `some` byte when in range,
`none` (panic) otherwise. -/
def intGet (p : List Nat) (i : Int) : Option Nat :=
  if 0 ≤ i ∧ i < (p.length : Int) then some (p.getD i.toNat 0) else none

/-- Go slicing `p[a:b]`: the sublist when `0 ≤ a ≤ b ≤ len p`,
`none` (panic) otherwise. -/
def sliceGo (p : List Nat) (a b : Int) : Option (List Nat) :=
  if 0 ≤ a ∧ a ≤ b ∧ b ≤ (p.length : Int) then
    some ((p.drop a.toNat).take (b - a).toNat)
  else none

/-- Effect of Go `copy(p[ms:], p[ms+shift:])` on the whole buffer:
bytes from `ms+shift` onward are moved down to `ms`; the final `shift`
bytes of the buffer are left untouched by `copy`. Meaningful when
`ms + shift ≤ p.length`, which the embedded `Read` has established
before using it. -/
def goCopyShift (p : List Nat) (ms shift : Nat) : List Nat :=
  p.take ms ++ p.drop (ms + shift) ++ p.drop (p.length - shift)

/-! ### Metadata collaborator, modelled from the spec (§4.2) -/

def nulChar : Char := Char.ofNat 0
def semiChar : Char := Char.ofNat 59
def eqChar : Char := Char.ofNat 61
def quoteChar : Char := Char.ofNat 39

/-- Metadata snapshot: the decoded key/value mapping of one announcement
block. Equality is value equality of the decoded content. -/
structure Metadata where
  fields : List (String × String)
deriving DecidableEq, Repr

/-- Modelled from the spec: §4.2 — drop the null-byte right padding of a
raw metadata block before decoding. -/
def stripNulls (l : List Char) : List Char :=
  (l.reverse.dropWhile (fun c => c = nulChar)).reverse

/-- Modelled from the spec: §4.2 — decode one text segment of the form
key='value'; anything else yields no entry. -/
def parseSegment (seg : List Char) : Option (String × String) :=
  let key := seg.takeWhile (fun c => c ≠ eqChar)
  match seg.dropWhile (fun c => c ≠ eqChar) with
  | [] => none
  | _ :: rest =>
    match rest with
    | [] => none
    | q :: rest2 =>
      if q = quoteChar then
        some (String.mk key, String.mk (rest2.takeWhile (fun c => c ≠ quoteChar)))
      else none

/-- Modelled from the spec: the `NewMetadata` constructor of the Metadata
collaborator (its source file is not under src/). Decodes a raw byte
range of semicolon-terminated key='value' segments, right-padded with
null bytes, into a snapshot. -/
def NewMetadata (raw : List Nat) : Metadata :=
  { fields := ((stripNulls (raw.map Char.ofNat)).splitOn semiChar).filterMap parseSegment }

/-- Modelled from the spec: the `Equals` comparison of the Metadata
collaborator, applied as `m.Equals(s.metadata)` where the stored snapshot
may still be absent (`nil` in Go, `none` here): an absent previous
snapshot is never equal to a freshly decoded one. -/
def metaEquals (m : Metadata) (prev : Option Metadata) : Bool :=
  match prev with
  | none => false
  | some m2 => m.fields = m2.fields

/-! ### The Stream data model (struct `Stream` in stream.go) -/

/-- The `Stream` struct of stream.go. `callbackSet` models whether the
`MetadataCallbackFunc` field is non-nil; the snapshots the callback is
invoked with are reported in `ReadOutcome.callbacks`. -/
structure Stream where
  Name : String
  Genre : String
  Description : String
  URL : String
  Bitrate : Int
  callbackSet : Bool
  metaint : Int
  metadata : Option Metadata
  pos : Int
deriving DecidableEq, Repr

/-- Everything observable about one `Read` call that returns: the byte
count and error returned to the caller, the buffer contents after the
call, the stream state after the call, and the snapshots passed to the
metadata callback during the call. -/
structure ReadOutcome where
  n : Int
  err : Option String
  buf : List Nat
  stream : Stream
  callbacks : List Metadata
deriving DecidableEq, Repr

/-- The demuxer `(*Stream).Read` of stream.go. `p` is the caller's buffer
before the call, `data` the bytes the underlying source wrote into its
front (`n = data.length`), `err` the source's error. `none` models a
runtime panic from an out-of-range slice. -/
def Stream.Read (s : Stream) (p data : List Nat) (err : Option String) :
    Option ReadOutcome :=
  let n : Int := data.length
  let buf0 : List Nat := data ++ p.drop data.length
  if s.pos + n ≤ s.metaint then
    some { n := n, err := err, buf := buf0,
           stream := { s with pos := s.pos + n }, callbacks := [] }
  else
    let ms : Int := s.metaint - s.pos
    match intGet buf0 ms with
    | none => none
    | some lb =>
      let mL : Int := (lb : Int) * 16
      let step : Option (Option Metadata × List Metadata) :=
        if 0 < mL then
          match sliceGo buf0 (ms + 1) (ms + 1 + mL) with
          | none => none
          | some raw =>
            let m := NewMetadata raw
            if metaEquals m s.metadata then some (s.metadata, [])
            else some (some m, if s.callbackSet then [m] else [])
        else some (s.metadata, [])
      match step with
      | none => none
      | some (md, cbs) =>
        some { n := n - 1 - mL, err := err,
               buf := goCopyShift buf0 ms.toNat (1 + mL.toNat),
               stream :=
                 { s with pos := s.pos + n - s.metaint - mL - 1, metadata := md },
               callbacks := cbs }

/-! ### Connection bootstrap `Open` (stream.go) -/

/-- Go `strconv.Atoi`: optional sign followed by at least one decimal
digit and nothing else (range errors of 64-bit ints are not modelled). -/
def digitsVal : List Char → Option Nat
  | [] => none
  | cs => cs.foldlM (fun acc c =>
      if 48 ≤ c.toNat ∧ c.toNat ≤ 57 then some (acc * 10 + (c.toNat - 48))
      else none) 0

def atoi (s : String) : Option Int :=
  match s.data with
  | [] => none
  | c :: rest =>
    if c = Char.ofNat 45 then (digitsVal rest).map (fun v => -(v : Int))
    else if c = Char.ofNat 43 then (digitsVal rest).map (fun v => (v : Int))
    else (digitsVal (c :: rest)).map (fun v => (v : Int))

/-- Go `resp.Header.Get`: the first value stored for the key, or the
empty string when the header is absent. -/
def headerGet (hs : List (String × String)) (k : String) : String :=
  match hs.find? (fun kv => kv.fst = k) with
  | some kv => kv.snd
  | none => ""

/-- The `Open` function of stream.go, abstracted over the environment:
`reqErr` is the error of `http.NewRequest` (its URL parsing), `doErr`
the error of `client.Do`, `hs` the response headers. The Go code
discards `reqErr` and immediately calls `req.Header.Add` on the then-nil
request, a nil-pointer panic — modelled as `none`. -/
def Open (reqErr doErr : Option String) (hs : List (String × String)) :
    Option (Except String Stream) :=
  match reqErr with
  | some _ => none
  | none =>
    match doErr with
    | some e => some (Except.error e)
    | none =>
      match atoi (headerGet hs "icy-br") with
      | none => some (Except.error "cannot parse bitrate")
      | some br =>
        match atoi (headerGet hs "icy-metaint") with
        | none => some (Except.error "cannot parse metaint")
        | some mi =>
          some (Except.ok
            { Name := headerGet hs "icy-name",
              Genre := headerGet hs "icy-genre",
              Description := headerGet hs "icy-description",
              URL := headerGet hs "icy-url",
              Bitrate := br,
              callbackSet := false,
              metaint := mi,
              metadata := none,
              pos := 0 })



/-! ### Helper lemmas characterizing the two branches of `Read` -/

/-- The metadata/callback outcome of the boundary branch, as a function of
the decoded snapshot and the block length. -/
def metaStep (s : Stream) (m : Metadata) (mL : Nat) : Option Metadata × List Metadata :=
  if mL = 0 then (s.metadata, [])
  else if metaEquals m s.metadata then (s.metadata, [])
  else (some m, if s.callbackSet then [m] else [])

/-! ### Concrete inputs used by counterexamples and witnesses -/

/-- Demuxer state for the C1 failing input: fresh stream, `metaint = 10`. -/
def c1St : Stream :=
  { Name := "", Genre := "", Description := "", URL := "", Bitrate := 128,
    callbackSet := false, metaint := 10, metadata := none, pos := 0 }

/-- Demuxer state for the C2 counterexample: a read starting exactly on a
metadata boundary (`pos = metaint = 10`). -/
def c2St : Stream :=
  { Name := "", Genre := "", Description := "", URL := "", Bitrate := 128,
    callbackSet := false, metaint := 10, metadata := none, pos := 10 }

def c2wSt : Stream :=
  { Name := "", Genre := "", Description := "", URL := "", Bitrate := 128,
    callbackSet := false, metaint := 2, metadata := none, pos := 0 }

def c2wOut : ReadOutcome :=
  { n := 3, err := none, buf := [65, 65, 66, 66],
    stream := { c2wSt with pos := 1 }, callbacks := [] }

def c3St : Stream :=
  { Name := "", Genre := "", Description := "", URL := "", Bitrate := 128,
    callbackSet := false, metaint := 10, metadata := none, pos := 0 }

/-- The 16 bytes of the block text StreamTitle='X'; -/
def c4Meta : List Nat := [83, 116, 114, 101, 97, 109, 84, 105, 116, 108, 101, 61, 39, 88, 39, 59]

def c4St : Stream :=
  { Name := "", Genre := "", Description := "", URL := "", Bitrate := 128,
    callbackSet := false, metaint := 2, metadata := none, pos := 0 }

/-- Two audio bytes, length byte 1, a 16-byte block, two audio bytes. -/
def c4Data : List Nat := [65, 65, 1] ++ c4Meta ++ [66, 66]

def c5Meta : List Nat := [83, 116, 114, 101, 97, 109, 84, 105, 116, 108, 101, 61, 39, 88, 39, 59]

def c5St : Stream :=
  { Name := "", Genre := "", Description := "", URL := "", Bitrate := 128,
    callbackSet := true, metaint := 2, metadata := none, pos := 0 }

def c5Data : List Nat := [65, 65, 1] ++ c5Meta ++ [66, 66]

def c6St : Stream :=
  { Name := "", Genre := "", Description := "", URL := "", Bitrate := 128,
    callbackSet := true, metaint := 2, metadata := none, pos := 0 }

def c7St : Stream :=
  { Name := "", Genre := "", Description := "", URL := "", Bitrate := 128,
    callbackSet := false, metaint := 10, metadata := none, pos := 0 }

def c7Out : ReadOutcome :=
  { n := 2, err := some "EOF", buf := [1, 2], stream := { c7St with pos := 2 }, callbacks := [] }

/-- Response headers declaring a metadata interval of 0. -/
def c9hs : List (String × String) := [("icy-br", "128"), ("icy-metaint", "0")]

/-- The stream `Open` constructs from `c9hs`: its `metaint` is 0. -/
def c9St : Stream :=
  { Name := "", Genre := "", Description := "", URL := "", Bitrate := 128,
    callbackSet := false, metaint := 0, metadata := none, pos := 0 }

def c9whs : List (String × String) := [("icy-br", "128"), ("icy-metaint", "8192")]

def c9wSt : Stream :=
  { Name := "", Genre := "", Description := "", URL := "", Bitrate := 128,
    callbackSet := false, metaint := 8192, metadata := none, pos := 0 }

end Shoutcast

namespace Shoutcast

/-- Pass-through branch of `Read`: no metadata boundary in the chunk. -/
theorem Read_passthrough_eq (s : Stream) (p data : List Nat) (err : Option String)
    (h : s.pos + (data.length : Int) ≤ s.metaint) :
    s.Read p data err =
      some { n := (data.length : Int), err := err, buf := data ++ p.drop data.length,
             stream := { s with pos := s.pos + (data.length : Int) }, callbacks := [] } := by
  simp only [Stream.Read]
  rw [if_pos h]

/-- Boundary branch of `Read`: a metadata boundary falls at offset `msn`
inside the bytes read and the declared block (of `mL` bytes) lies wholly
within them. -/
theorem Read_boundary_eq (s : Stream) (p data : List Nat) (err : Option String)
    (msn mL : Nat)
    (hlen : data.length ≤ p.length)
    (hms : s.metaint - s.pos = (msn : Int))
    (hb : s.metaint < s.pos + (data.length : Int))
    (hlb : mL = data.getD msn 0 * 16)
    (hfit : msn + 1 + mL ≤ data.length) :
    s.Read p data err =
      some { n := (data.length : Int) - 1 - (mL : Int),
             err := err,
             buf := goCopyShift (data ++ p.drop data.length) msn (1 + mL),
             stream := { s with
               pos := s.pos + (data.length : Int) - s.metaint - (mL : Int) - 1,
               metadata := (metaStep s (NewMetadata ((data.drop (msn + 1)).take mL)) mL).1 },
             callbacks := (metaStep s (NewMetadata ((data.drop (msn + 1)).take mL)) mL).2 } := by
  have hmsn : msn < data.length := by omega
  have hbuf : (data ++ p.drop data.length).length = p.length := by
    simp [List.length_append, List.length_drop]; omega
  have hget : intGet (data ++ p.drop data.length) ((msn : Nat) : Int)
      = some (data.getD msn 0) := by
    unfold intGet
    rw [if_pos (by refine ⟨by omega, ?_⟩; rw [hbuf]; exact_mod_cast by omega)]
    rw [Int.toNat_natCast]
    exact congrArg some (List.getD_append data (p.drop data.length) 0 msn hmsn)
  have hcast : ((data.getD msn 0 : Nat) : Int) * 16 = (mL : Int) := by
    rw [hlb]; push_cast; ring
  have htn : ((mL : Int)).toNat = mL := Int.toNat_natCast mL
  simp only [Stream.Read, hms, hget]
  rw [if_neg (by omega)]
  simp only [hcast, htn, Int.toNat_natCast]
  rcases Nat.eq_zero_or_pos mL with hz | hpos
  · rw [if_neg (by exact_mod_cast by omega)]
    simp [metaStep, hz]
  · have hslice : sliceGo (data ++ p.drop data.length) ((msn : Int) + 1)
        ((msn : Int) + 1 + (mL : Int)) = some ((data.drop (msn + 1)).take mL) := by
      unfold sliceGo
      rw [if_pos (by refine ⟨by omega, by omega, ?_⟩; rw [hbuf]; exact_mod_cast by omega)]
      have h1 : (((msn : Int) + 1)).toNat = msn + 1 := by omega
      have h2 : (((msn : Int) + 1 + (mL : Int)) - ((msn : Int) + 1)).toNat = mL := by omega
      rw [h1, h2]
      rw [List.drop_append_of_le_length (by omega)]
      rw [List.take_append_of_le_length (by simp [List.length_drop]; omega)]
    rw [if_pos (by exact_mod_cast hpos)]
    simp only [hslice]
    simp only [metaStep, if_neg (by omega : ¬ mL = 0)]
    cases hEq : metaEquals (NewMetadata ((data.drop (msn + 1)).take mL)) s.metadata
    · simp [hEq]
    · simp [hEq]

/-- Bytes below the compaction point are untouched by `goCopyShift`. -/
theorem goCopyShift_getD_lt (p : List Nat) (ms shift i : Nat)
    (hms : ms ≤ p.length) (h : i < ms) :
    (goCopyShift p ms shift).getD i 0 = p.getD i 0 := by
  simp only [goCopyShift, List.getD_eq_getElem?_getD, List.getElem?_append,
    List.length_append, List.length_take, List.length_drop, List.getElem?_take]
  rw [if_pos (by omega), if_pos (by omega), if_pos h]

/-- Bytes at or above the compaction point are shifted down by `shift`. -/
theorem goCopyShift_getD_ge (p : List Nat) (ms shift i : Nat)
    (h1 : ms ≤ i) (h2 : i + shift < p.length) :
    (goCopyShift p ms shift).getD i 0 = p.getD (i + shift) 0 := by
  simp only [goCopyShift, List.getD_eq_getElem?_getD, List.getElem?_append,
    List.length_append, List.length_take, List.length_drop, List.getElem?_drop]
  rw [if_pos (by omega), if_neg (by omega)]
  have hmin : min ms p.length = ms := by omega
  rw [hmin]
  have hidx : ms + shift + (i - ms) = i + shift := by omega
  rw [hidx]

/-- Whatever `Read` does, it never changes `metaint`. -/
theorem Read_metaint_const (s : Stream) (p data : List Nat) (err : Option String)
    (r : ReadOutcome) (hr : s.Read p data err = some r) :
    r.stream.metaint = s.metaint := by
  simp only [Stream.Read] at hr
  split at hr
  · cases hr; rfl
  · split at hr
    · cases hr
    · split at hr
      · cases hr
      · rename_i md cbs heq
        cases hr; rfl

end Shoutcast

namespace Shoutcast

/-! ### Claim theorems -/

/-- Claim C1: the claim states that `Read` never performs an unchecked
out-of-range access and that malformed metadata (a declared block length
extending past the bytes read or past the buffer) is surfaced as a
recoverable error or deferred state. The code violates this: at a read
where the length byte 255 sits at the boundary of an 11-byte buffer, the
slice `p[11:4091]` is out of range and the call faults (modelled as
`none`) instead of returning an error. -/
theorem read_oob_fault_C1 :
    c1St.Read (List.replicate 11 0) (List.replicate 10 65 ++ [255]) none = none := by
  decide

/-- Claim C2 counterexample: the invariant `0 ≤ pos ≤ metaint` at the
start of a `Read` does not survive every call. Starting from
`pos = metaint = 10` (a legal state), a read that delivers one byte — the
length byte 1 — of a block whose payload has not arrived leaves
`pos = -16`. -/
theorem read_pos_invariant_cex_C2 :
    0 ≤ c2St.pos ∧ c2St.pos ≤ c2St.metaint ∧
    (c2St.Read (List.replicate 20 0) [1] none).map (fun r => r.stream.pos) = some (-16) ∧
    ¬ (0 ≤ (-16 : Int)) := by
  decide

/-- Claim C2 (amended): for every `Read` that starts with
`0 ≤ pos ≤ metaint` and in which either no metadata boundary occurs, or
the boundary's declared block lies wholly within the bytes read and the
audio remainder after it is at most `metaint` (i.e. a single whole block
per call), the resulting `pos` again satisfies `0 ≤ pos ≤ metaint`. -/
theorem read_pos_invariant_C2 (s : Stream) (p data : List Nat) (err : Option String)
    (r : ReadOutcome)
    (hlen : data.length ≤ p.length)
    (h0 : 0 ≤ s.pos) (h1 : s.pos ≤ s.metaint)
    (hsingle : s.metaint < s.pos + (data.length : Int) →
      (s.metaint - s.pos).toNat + 1 + data.getD (s.metaint - s.pos).toNat 0 * 16 ≤ data.length ∧
      (data.length : Int) - (s.metaint - s.pos) - 1 -
        ((data.getD (s.metaint - s.pos).toNat 0 * 16 : Nat) : Int) ≤ s.metaint)
    (hr : s.Read p data err = some r) :
    0 ≤ r.stream.pos ∧ r.stream.pos ≤ s.metaint := by
  by_cases hpass : s.pos + (data.length : Int) ≤ s.metaint
  · rw [Read_passthrough_eq s p data err hpass] at hr
    cases hr
    dsimp only
    constructor <;> omega
  · have hbd := hsingle (by omega)
    have hms : s.metaint - s.pos = (((s.metaint - s.pos).toNat : Nat) : Int) := by omega
    rw [Read_boundary_eq s p data err (s.metaint - s.pos).toNat
      (data.getD (s.metaint - s.pos).toNat 0 * 16) hlen hms (by omega) rfl hbd.1] at hr
    cases hr
    dsimp only
    rcases hbd with ⟨hf, hrem⟩
    constructor <;> omega

/-- Witness for C2 (amended): a concrete boundary read (length byte 0)
whose resulting `pos = 1` satisfies the invariant. -/
theorem read_pos_invariant_witness_C2 :
    (c2wSt.Read [0, 0, 0, 0] [65, 65, 0, 66] none = some c2wOut) ∧
    0 ≤ c2wOut.stream.pos ∧ c2wOut.stream.pos ≤ c2wSt.metaint :=
  ⟨by decide,
   read_pos_invariant_C2 c2wSt [0, 0, 0, 0] [65, 65, 0, 66] none c2wOut
     (by decide) (by decide) (by decide) (by decide) (by decide)⟩

/-- Claim C3: for every `Read` in which the source delivers `n` bytes
with `pos + n ≤ metaint`, the call returns exactly the source's byte
count and status, the buffer holds exactly the source's bytes (the tail
beyond them untouched), no callback fires, and `pos` advances by exactly
`n`. -/
theorem read_passthrough_C3 (s : Stream) (p data : List Nat) (err : Option String)
    (h : s.pos + (data.length : Int) ≤ s.metaint) :
    s.Read p data err =
      some { n := (data.length : Int), err := err, buf := data ++ p.drop data.length,
             stream := { s with pos := s.pos + (data.length : Int) }, callbacks := [] } ∧
    (data ++ p.drop data.length).take data.length = data :=
  ⟨Read_passthrough_eq s p data err h, List.take_left data (p.drop data.length)⟩

/-- Witness for C3: a 3-byte pass-through read into a 5-byte buffer. -/
theorem read_passthrough_witness_C3 :
    c3St.pos + (([7, 8, 9] : List Nat).length : Int) ≤ c3St.metaint ∧
    (c3St.Read [0, 0, 0, 0, 0] [7, 8, 9] none =
      some { n := (([7, 8, 9] : List Nat).length : Int), err := none,
             buf := [7, 8, 9] ++ ([0, 0, 0, 0, 0] : List Nat).drop ([7, 8, 9] : List Nat).length,
             stream := { c3St with pos := c3St.pos + (([7, 8, 9] : List Nat).length : Int) },
             callbacks := [] } ∧
      (([7, 8, 9] : List Nat) ++
        ([0, 0, 0, 0, 0] : List Nat).drop ([7, 8, 9] : List Nat).length).take
          ([7, 8, 9] : List Nat).length = [7, 8, 9]) :=
  ⟨by decide, read_passthrough_C3 c3St [0, 0, 0, 0, 0] [7, 8, 9] none (by decide)⟩

/-- Claim C4: when a metadata boundary falls inside the `n` bytes read
(at `metadataStart = metaint - pos`) and the whole declared block
(`blockLen = buffer[metadataStart] * 16`) lies within those bytes, the
returned count is `n - 1 - blockLen`, the new `pos` is
`(pos + n) - metaint - blockLen - 1`, and the buffer is compacted:
bytes below `metadataStart` are unchanged and every byte at position
`i ≥ metadataStart` of the result equals the original byte at
`i + 1 + blockLen`, for the whole shifted range up to `n`. -/
theorem read_compaction_C4 (s : Stream) (p data : List Nat) (err : Option String)
    (msn mL : Nat)
    (hlen : data.length ≤ p.length)
    (hms : s.metaint - s.pos = (msn : Int))
    (hb : s.metaint < s.pos + (data.length : Int))
    (hlb : mL = data.getD msn 0 * 16)
    (hfit : msn + 1 + mL ≤ data.length) :
    ∃ r, s.Read p data err = some r ∧
      r.n = (data.length : Int) - 1 - (mL : Int) ∧
      r.stream.pos = s.pos + (data.length : Int) - s.metaint - (mL : Int) - 1 ∧
      (∀ i, i < msn → r.buf.getD i 0 = data.getD i 0) ∧
      (∀ i, msn ≤ i → i + 1 + mL < data.length → r.buf.getD i 0 = data.getD (i + 1 + mL) 0) := by
  refine ⟨_, Read_boundary_eq s p data err msn mL hlen hms hb hlb hfit, rfl, rfl, ?_, ?_⟩
  · intro i hi
    dsimp only
    rw [goCopyShift_getD_lt (data ++ p.drop data.length) msn (1 + mL) i
      (by simp [List.length_append, List.length_drop]; omega) hi]
    exact List.getD_append data (p.drop data.length) 0 i (by omega)
  · intro i hge hlt
    dsimp only
    rw [goCopyShift_getD_ge (data ++ p.drop data.length) msn (1 + mL) i hge
      (by simp [List.length_append, List.length_drop]; omega)]
    have h3 : i + (1 + mL) = i + 1 + mL := by omega
    rw [h3]
    exact List.getD_append data (p.drop data.length) 0 (i + 1 + mL) (by omega)

/-- Witness for C4: a 21-byte read with `metaint = 2` containing a
16-byte block behind length byte 1. -/
theorem read_compaction_witness_C4 :
    c4Data.length ≤ (List.replicate 21 0 : List Nat).length ∧
    c4St.metaint - c4St.pos = ((2 : Nat) : Int) ∧
    c4St.metaint < c4St.pos + (c4Data.length : Int) ∧
    (16 : Nat) = c4Data.getD 2 0 * 16 ∧
    2 + 1 + 16 ≤ c4Data.length ∧
    (∃ r, c4St.Read (List.replicate 21 0) c4Data none = some r ∧
      r.n = (c4Data.length : Int) - 1 - ((16 : Nat) : Int) ∧
      r.stream.pos = c4St.pos + (c4Data.length : Int) - c4St.metaint - ((16 : Nat) : Int) - 1 ∧
      (∀ i, i < 2 → r.buf.getD i 0 = c4Data.getD i 0) ∧
      (∀ i, 2 ≤ i → i + 1 + 16 < c4Data.length → r.buf.getD i 0 = c4Data.getD (i + 1 + 16) 0)) :=
  ⟨by decide, by decide, by decide, by decide, by decide,
   read_compaction_C4 c4St (List.replicate 21 0) c4Data none 2 16
     (by decide) (by decide) (by decide) (by decide) (by decide)⟩

/-- Claim C5: for every `Read` that decodes a block with `blockLen > 0`:
when the decoded snapshot differs (by value equality) from the stored
`lastMetadata`, the stored snapshot is replaced and the callback (when
set) is invoked with exactly that snapshot before the call returns; when
it is equal, neither the stored snapshot nor the callback is touched.
Consequently two consecutive identical blocks produce exactly one
callback invocation and two differing blocks produce two. -/
theorem read_change_detection_C5 (s : Stream) (p data : List Nat) (err : Option String)
    (msn mL : Nat)
    (hlen : data.length ≤ p.length)
    (hms : s.metaint - s.pos = (msn : Int))
    (hb : s.metaint < s.pos + (data.length : Int))
    (hlb : mL = data.getD msn 0 * 16)
    (hfit : msn + 1 + mL ≤ data.length)
    (hpos : 0 < mL) :
    ∃ r, s.Read p data err = some r ∧
      (metaEquals (NewMetadata ((data.drop (msn + 1)).take mL)) s.metadata = true →
        r.stream.metadata = s.metadata ∧ r.callbacks = []) ∧
      (metaEquals (NewMetadata ((data.drop (msn + 1)).take mL)) s.metadata = false →
        r.stream.metadata = some (NewMetadata ((data.drop (msn + 1)).take mL)) ∧
        r.callbacks =
          (if s.callbackSet then [NewMetadata ((data.drop (msn + 1)).take mL)] else [])) := by
  refine ⟨_, Read_boundary_eq s p data err msn mL hlen hms hb hlb hfit, ?_, ?_⟩
  · intro hEq
    dsimp only
    simp [metaStep, (by omega : ¬ mL = 0), hEq]
  · intro hEq
    dsimp only
    unfold metaStep
    rw [if_neg (by omega : ¬ mL = 0), if_neg (by simp [hEq])]
    exact ⟨rfl, rfl⟩

/-- Witness for C5: the block StreamTitle='X'; decoded from a fresh
stream (stored snapshot absent), so the snapshot is stored and the set
callback fires once with it. -/
theorem read_change_detection_witness_C5 :
    c5Data.length ≤ (List.replicate 21 0 : List Nat).length ∧
    c5St.metaint - c5St.pos = ((2 : Nat) : Int) ∧
    c5St.metaint < c5St.pos + (c5Data.length : Int) ∧
    (16 : Nat) = c5Data.getD 2 0 * 16 ∧
    2 + 1 + 16 ≤ c5Data.length ∧
    (0 : Nat) < 16 ∧
    (∃ r, c5St.Read (List.replicate 21 0) c5Data none = some r ∧
      (metaEquals (NewMetadata ((c5Data.drop (2 + 1)).take 16)) c5St.metadata = true →
        r.stream.metadata = c5St.metadata ∧ r.callbacks = []) ∧
      (metaEquals (NewMetadata ((c5Data.drop (2 + 1)).take 16)) c5St.metadata = false →
        r.stream.metadata = some (NewMetadata ((c5Data.drop (2 + 1)).take 16)) ∧
        r.callbacks =
          (if c5St.callbackSet then [NewMetadata ((c5Data.drop (2 + 1)).take 16)] else []))) :=
  ⟨by decide, by decide, by decide, by decide, by decide, by decide,
   read_change_detection_C5 c5St (List.replicate 21 0) c5Data none 2 16
     (by decide) (by decide) (by decide) (by decide) (by decide) (by decide)⟩

/-- Claim C6: when a metadata boundary falls inside the bytes read and
the length byte there is 0, exactly one byte (the length byte itself) is
removed from the returned data (count `n - 1`, all other bytes shifted
down by one past the boundary), no snapshot is created, the stored
metadata is unchanged, and the callback is not invoked. -/
theorem read_empty_block_C6 (s : Stream) (p data : List Nat) (err : Option String)
    (msn : Nat)
    (hlen : data.length ≤ p.length)
    (hms : s.metaint - s.pos = (msn : Int))
    (hb : s.metaint < s.pos + (data.length : Int))
    (hlb : data.getD msn 0 = 0)
    (hfit : msn + 1 ≤ data.length) :
    ∃ r, s.Read p data err = some r ∧
      r.n = (data.length : Int) - 1 ∧
      r.stream.metadata = s.metadata ∧
      r.callbacks = [] ∧
      (∀ i, i < msn → r.buf.getD i 0 = data.getD i 0) ∧
      (∀ i, msn ≤ i → i + 1 < data.length → r.buf.getD i 0 = data.getD (i + 1) 0) := by
  refine ⟨_, Read_boundary_eq s p data err msn 0 hlen hms hb (by rw [hlb]) (by omega),
    ?_, ?_, ?_, ?_, ?_⟩
  · dsimp only
    norm_num
  · dsimp only
    simp [metaStep]
  · dsimp only
    simp [metaStep]
  · intro i hi
    dsimp only
    rw [goCopyShift_getD_lt (data ++ p.drop data.length) msn (1 + 0) i
      (by simp [List.length_append, List.length_drop]; omega) hi]
    exact List.getD_append data (p.drop data.length) 0 i (by omega)
  · intro i hge hlt
    dsimp only
    rw [goCopyShift_getD_ge (data ++ p.drop data.length) msn (1 + 0) i hge
      (by simp [List.length_append, List.length_drop]; omega)]
    have h3 : i + (1 + 0) = i + 1 := by omega
    rw [h3]
    exact List.getD_append data (p.drop data.length) 0 (i + 1) (by omega)

/-- Witness for C6: a 4-byte read over `metaint = 2` whose length byte is
0; one byte is dropped and no callback fires. -/
theorem read_empty_block_witness_C6 :
    (([65, 65, 0, 66] : List Nat)).length ≤ (([0, 0, 0, 0] : List Nat)).length ∧
    c6St.metaint - c6St.pos = ((2 : Nat) : Int) ∧
    c6St.metaint < c6St.pos + ((([65, 65, 0, 66] : List Nat)).length : Int) ∧
    ([65, 65, 0, 66] : List Nat).getD 2 0 = 0 ∧
    2 + 1 ≤ (([65, 65, 0, 66] : List Nat)).length ∧
    (∃ r, c6St.Read [0, 0, 0, 0] [65, 65, 0, 66] none = some r ∧
      r.n = ((([65, 65, 0, 66] : List Nat)).length : Int) - 1 ∧
      r.stream.metadata = c6St.metadata ∧
      r.callbacks = [] ∧
      (∀ i, i < 2 → r.buf.getD i 0 = ([65, 65, 0, 66] : List Nat).getD i 0) ∧
      (∀ i, 2 ≤ i → i + 1 < (([65, 65, 0, 66] : List Nat)).length →
        r.buf.getD i 0 = ([65, 65, 0, 66] : List Nat).getD (i + 1) 0)) :=
  ⟨by decide, by decide, by decide, by decide, by decide,
   read_empty_block_C6 c6St [0, 0, 0, 0] [65, 65, 0, 66] none 2
     (by decide) (by decide) (by decide) (by decide) (by decide)⟩

/-- Claim C7: whenever `Read` returns, the error value it returns to the
caller is exactly the error value of the underlying source read in that
same call, in the pass-through branch and in the boundary branch
alike. -/
theorem read_error_verbatim_C7 (s : Stream) (p data : List Nat) (err : Option String)
    (r : ReadOutcome) (hr : s.Read p data err = some r) : r.err = err := by
  simp only [Stream.Read] at hr
  split at hr
  · cases hr; rfl
  · split at hr
    · cases hr
    · split at hr
      · cases hr
      · rename_i md cbs heq
        cases hr; rfl

/-- Witness for C7: a pass-through read whose source reports bytes and
the error EOF together; the call returns the same error. -/
theorem read_error_verbatim_witness_C7 :
    c7St.Read [0, 0] [1, 2] (some "EOF") = some c7Out ∧ c7Out.err = some "EOF" :=
  ⟨by decide, read_error_verbatim_C7 c7St [0, 0] [1, 2] (some "EOF") c7Out (by decide)⟩

/-- Claim C8: for every response whose icy-br or icy-metaint header is
absent or non-numeric, `Open` returns an error (and no stream); when
both parse as integers, construction succeeds and the stream's `Bitrate`
and `metaint` fields hold the parsed values. -/
theorem open_header_parsing_C8 (hs : List (String × String)) :
    match atoi (headerGet hs "icy-br"), atoi (headerGet hs "icy-metaint") with
    | some br, some mi => ∃ st, Open none none hs = some (Except.ok st) ∧
        st.Bitrate = br ∧ st.metaint = mi
    | _, _ => ∃ e, Open none none hs = some (Except.error e) := by
  rcases h1 : atoi (headerGet hs "icy-br") with _ | br <;>
    rcases h2 : atoi (headerGet hs "icy-metaint") with _ | mi <;>
      simp only [h1, h2, Open]
  · exact ⟨_, rfl⟩
  · exact ⟨_, rfl⟩
  · exact ⟨_, rfl⟩
  · exact ⟨_, rfl, rfl, rfl⟩

/-- Claim C9 counterexample: the claim states `metaint` is positive for
every stream `Open` constructs, yet a response declaring
icy-metaint: 0 is accepted and produces a stream with `metaint = 0`. -/
theorem open_metaint_zero_cex_C9 :
    Open none none c9hs = some (Except.ok c9St) ∧ ¬ (0 < c9St.metaint) :=
  ⟨rfl, by decide⟩

/-- Claim C9 (amended): for every stream `Open` constructs, `metaint`
equals the parsed server-declared icy-metaint value — positivity is not
enforced — and it is fixed at construction: no `Read` ever changes
it. -/
theorem open_metaint_from_header_C9 (hs : List (String × String)) (st : Stream)
    (h : Open none none hs = some (Except.ok st)) :
    atoi (headerGet hs "icy-metaint") = some st.metaint ∧
    (∀ p data err r, st.Read p data err = some r → r.stream.metaint = st.metaint) := by
  refine ⟨?_, fun p data err r hr => Read_metaint_const st p data err r hr⟩
  simp only [Open] at h
  rcases h1 : atoi (headerGet hs "icy-br") with _ | br <;> rw [h1] at h
  · exact absurd h (by simp)
  · rcases h2 : atoi (headerGet hs "icy-metaint") with _ | mi <;> rw [h2] at h
    · exact absurd h (by simp)
    · simp only [Option.some.injEq] at h
      cases h
      rfl

/-- Witness for C9 (amended): headers declaring icy-metaint 8192 yield a
stream whose `metaint` is that value, and no `Read` changes it. -/
theorem open_metaint_from_header_witness_C9 :
    Open none none c9whs = some (Except.ok c9wSt) ∧
    (atoi (headerGet c9whs "icy-metaint") = some c9wSt.metaint ∧
     (∀ p data err r, c9wSt.Read p data err = some r → r.stream.metaint = c9wSt.metaint)) :=
  ⟨rfl, open_metaint_from_header_C9 c9whs c9wSt rfl⟩

/-- Claim C10: the claim states that for a url the request constructor
rejects, `Open` returns that error rather than faulting. The code
discards the error of `http.NewRequest` and immediately dereferences the
then-nil request (`req.Header.Add`), a nil-pointer fault (modelled as
`none`) instead of an error return. -/
theorem open_discarded_request_error_C10 :
    Open (some "parse error: first path segment in URL cannot contain colon") none [] = none :=
  rfl

end Shoutcast
